import Mathlib

/-!
Verification of the cloudinary-evaluator core (src/lib/analyzer.js and the
crawl orchestration in src/App.jsx) against its natural-language
specification.  Strings are modelled as `List Char`; JavaScript regular
expressions are modelled by explicit decidable scanners; IEEE doubles are
modelled by exact rationals (`ℚ`); JavaScript `Set` objects are modelled by
insertion-ordered duplicate-free lists.
-/

namespace CloudinaryEval

abbrev Str := List Char

/-- `[a-z]` with the `/i` flag: any ASCII letter. -/
def isLetterCI (c : Char) : Bool :=
  (('a' ≤ c) && (c ≤ 'z')) || (('A' ≤ c) && (c ≤ 'Z'))

/-- `[a-z]` without the `/i` flag: lowercase ASCII letters only. -/
def isLowerAZ (c : Char) : Bool :=
  ('a' ≤ c) && (c ≤ 'z')

/-- `\d`: ASCII digits. -/
def isDigitCh (c : Char) : Bool :=
  ('0' ≤ c) && (c ≤ '9')

/-- `[a-z0-9]` with `/i`: ASCII letters and digits. -/
def isAlnumCI (c : Char) : Bool :=
  isLetterCI c || isDigitCh c

/-- ASCII lower-casing, modelling JavaScript `toLowerCase` on the ASCII
inputs this program manipulates. -/
def lowerStr (s : Str) : Str := s.map Char.toLower

/-- JavaScript `String.prototype.split(sep)` for a one-character separator:
always returns at least one (possibly empty) field. -/
def splitOnChar (sep : Char) : Str → List Str
  | [] => [[]]
  | c :: rest =>
    let tail := splitOnChar sep rest
    if c = sep then [] :: tail
    else match tail with
      | [] => [[c]]
      | f :: fs => (c :: f) :: fs

/-- JavaScript `String.prototype.trim` (whitespace from both ends). -/
def jsTrim (s : Str) : Str :=
  ((s.dropWhile Char.isWhitespace).reverse.dropWhile Char.isWhitespace).reverse

/-- `pathname.replace(/^\/+/, "").split("/").filter(Boolean)`: the non-empty
`/`-separated segments of a path. -/
def pathSegments (p : Str) : List Str :=
  (splitOnChar '/' p).filter (fun s => s ≠ [])

/-- Substring test (`regexLiteral.test(s)` for a literal pattern). -/
def containsSub (needle : Str) : Str → Bool
  | [] => needle.isPrefixOf []
  | c :: rest => needle.isPrefixOf (c :: rest) || containsSub needle rest

/-- Case-insensitive prefix test; the pattern is given lowercase. -/
def ciStartsWith (pat s : Str) : Bool :=
  pat.isPrefixOf (lowerStr s)

/-- `/\.[a-z0-9]+$/i`: the string ends in a dot followed by at least one
alphanumeric character. -/
def endsWithExt (s : Str) : Bool :=
  let r := s.reverse
  let run := r.takeWhile isAlnumCI
  run.length ≥ 1 && (r.drop run.length).head? = some '.'

/-- `/^v\d+$/i`: a version marker segment. -/
def isVersionSeg (s : Str) : Bool :=
  match s with
  | [] => false
  | c :: rest => (c = 'v' || c = 'V') && rest ≠ [] && rest.all isDigitCh

/-- The keyword alternatives of `CLOUDINARY_TX_PATTERN`
(`auto|limit|fill|crop|scale|fit|pad|lfill|limit|mfit|mpad|thumb|imagga_crop|imagga_scale|imagga_pad`). -/
def txKeywords : List Str :=
  [("auto").data, ("limit").data, ("fill").data, ("crop").data,
   ("scale").data, ("fit").data, ("pad").data, ("lfill").data,
   ("limit").data, ("mfit").data, ("mpad").data, ("thumb").data,
   ("imagga_crop").data, ("imagga_scale").data, ("imagga_pad").data]

/-- A match of `CLOUDINARY_TX_PATTERN` starting exactly at the head of `s`:
one or more letters, an underscore, then a keyword or at least one digit
(case-insensitively). -/
def txMatchHere (s : Str) : Bool :=
  let run := s.takeWhile isLetterCI
  run.length ≥ 1 &&
    match s.drop run.length with
    | '_' :: rest =>
        txKeywords.any (fun k => ciStartsWith k rest) ||
          (match rest.head? with
           | some d => isDigitCh d
           | none => false)
    | _ => false

/-- `CLOUDINARY_TX_PATTERN.test(s)`: an unanchored search for the
transformation-token pattern. -/
def txTest : Str → Bool
  | [] => false
  | c :: rest => txMatchHere (c :: rest) || txTest rest

/-- `/^[a-z]+_\d+/.test(s)` (anchored, case-sensitive). -/
def txNumAnchored (s : Str) : Bool :=
  let run := s.takeWhile isLowerAZ
  run.length ≥ 1 &&
    match s.drop run.length with
    | '_' :: rest =>
        (match rest.head? with
         | some d => isDigitCh d
         | none => false)
    | _ => false

/-- `hasCloudinaryTransformations(segment)` from analyzer.js: an empty
segment has none; a comma-free segment must match the transformation
pattern; otherwise some comma-separated part must match the pattern or the
anchored `letters_digits` shape after trimming. -/
def hasCloudinaryTransformations (s : Str) : Bool :=
  if s = [] then false
  else if !(s.contains ',') then txTest s
  else (splitOnChar ',' s).any
    (fun part => txTest (jsTrim part) || txNumAnchored (jsTrim part))

/-- `hasCloudinaryTransformations` applied to a possibly-`undefined`
segment (the `!segment` guard). -/
def hasTxOpt : Option Str → Bool
  | none => false
  | some s => hasCloudinaryTransformations s

/-! ## URL parsing

`parseCloudinaryUrl` starts with `new URL(url, "https://placeholder")` and
uses only `pathname` and `hostname`.  `urlParse` models that platform API
(not part of this repository's sources): it handles absolute `http`/`https`
URLs, other-scheme URLs, protocol-relative, path-absolute and relative
references resolved against the placeholder base, cutting the path at the
first `?` or `#`.  Percent-encoding and dot-segment normalization are not
modelled; an absolute special-scheme URL with an empty authority fails
(`none`), matching the `URL` constructor throwing. -/

/-- Cut a reference at the first query or fragment delimiter. -/
def cutQueryFragment (s : Str) : Str :=
  s.takeWhile (fun c => c ≠ '?' && c ≠ '#')

/-- Split an authority-prefixed remainder (`after the //`) into a hostname
and a pathname.  User info up to an `@` and a `:port` suffix are stripped;
the hostname is lower-cased. -/
def splitAuthority (s : Str) : Option (Str × Str) :=
  let auth := s.takeWhile (fun c => c ≠ '/' && c ≠ '?' && c ≠ '#')
  let rest := s.drop auth.length
  let hostPort := if auth.contains '@' then
      ((splitOnChar '@' auth).getLast? ).getD []
    else auth
  let host := hostPort.takeWhile (fun c => c ≠ ':')
  if host = [] then none
  else some (lowerStr host, match cutQueryFragment rest with
    | [] => ['/']
    | p => p)

/-- Does the string start with a URL scheme (`letter (letter|digit|+|-|.)* :`)? -/
def schemeLength (s : Str) : Option Nat :=
  match s with
  | [] => none
  | c :: rest =>
    if isLetterCI c then
      let run := rest.takeWhile
        (fun d => isAlnumCI d || d = '+' || d = '-' || d = '.')
      if (rest.drop run.length).head? = some ':' then some (run.length + 1)
      else none
    else none

/-- Modelled platform API: the hostname and pathname that
`new URL(url, "https://placeholder")` would expose, or `none` when the
constructor would throw. -/
def urlParse (url : Str) : Option (Str × Str) :=
  match schemeLength url with
  | some n =>
    let scheme := lowerStr (url.take n)
    let rest := url.drop (n + 1)
    if scheme = ("http").data || scheme = ("https").data then
      if (("//").data).isPrefixOf rest then splitAuthority (rest.drop 2)
      else none
    else
      some ([], cutQueryFragment rest)
  | none =>
    if (("//").data).isPrefixOf url then splitAuthority (url.drop 2)
    else if url.head? = some '/' then
      some (("placeholder").data, cutQueryFragment url)
    else
      some (("placeholder").data, '/' :: cutQueryFragment url)

/-! ## The CDN-URL classifier (`parseCloudinaryUrl`) -/

/-- CdnDescriptor: the object returned by `parseCloudinaryUrl`.  `txSet`
models the JavaScript `Set` as an insertion-ordered duplicate-free list. -/
structure Cld where
  cloudName : Str
  resourceType : Str
  deliveryType : Str
  publicId : Str
  transformations : Str
  txSet : List Str
deriving DecidableEq, Repr

/-- `RESOURCE_TYPES`. -/
def resourceTypes : List Str := [("image").data, ("video").data, ("raw").data]

/-- `DELIVERY_TYPES`. -/
def deliveryTypes : List Str :=
  [("upload").data, ("fetch").data, ("private").data, ("authenticated").data]

/-- `normalizeResourceType`: the pluralized `images` alias. -/
def normalizeResourceType (s : Str) : Str :=
  if s = ("images").data then ("image").data else s

/-- A segment recognized as a resource type (`image`, `video`, `raw`, or the
`images` alias). -/
def isResourceSeg (s : Str) : Bool :=
  normalizeResourceType s ∈ resourceTypes

/-- The JavaScript `Set` built from insertion order: keep first occurrences. -/
def dedupKeepFirst (l : List Str) : List Str := go l []
where
  go : List Str → List Str → List Str
    | [], _ => []
    | x :: rest, seen =>
      if x ∈ seen then go rest seen else x :: go rest (x :: seen)

/-- Join segments with a separator character (for `join("/")`, `join(",")`). -/
def joinWith (sep : Char) : List Str → Str
  | [] => []
  | [s] => s
  | s :: rest => s ++ sep :: joinWith sep rest

/-- The shared remainder scan of analyzer.js (lines 134–168 and 223–249):
returns the transformation-bearing segments and the `stopIndex`.  For `raw`
resources the loop always decides on the first segment; for image/video it
stops at a version marker or a segment with a file extension. -/
def scanRemainder (isRawFile : Bool) (rem : List Str) : List Str × Nat :=
  if isRawFile then
    match rem with
    | [] => ([], 0)
    | s :: _ => if hasCloudinaryTransformations s then ([s], 1) else ([], 0)
  else go rem 0
where
  go : List Str → Nat → List Str × Nat
    | [], i => ([], i)
    | s :: rest, i =>
      if isVersionSeg s || endsWithExt s then ([], i)
      else if hasCloudinaryTransformations s then
        let (xs, j) := go rest (i + 1)
        (s :: xs, j)
      else go rest (i + 1)

/-- Comma-split, trimmed, non-empty transformation tokens collected from the
transformation segments. -/
def collectTx (txSegs : List Str) : List Str :=
  txSegs.flatMap (fun s =>
    ((splitOnChar ',' s).map jsTrim).filter (fun t => t ≠ []))

/-- Build the descriptor from a recognized structure (shared tail of the
canonical branch and the explicit fallback); `none` models the early
`return null` on an empty remainder. -/
def buildResult (cloudName resourceType deliveryType : Str)
    (rem : List Str) : Option Cld :=
  if rem = [] then none
  else
    let isRawFile := resourceType = ("raw").data
    let (txSegs, stop) := scanRemainder isRawFile rem
    let allT := collectTx txSegs
    let publicId :=
      if isRawFile ∧ txSegs = [] then joinWith '/' rem
      else joinWith '/' (rem.drop stop)
    some ⟨cloudName, resourceType, deliveryType, publicId,
          joinWith ',' allT, dedupKeepFirst allT⟩

/-- Dispatch on the (possibly missing) delivery-type segment of the
canonical layout: a recognized delivery type, an implicit `upload` when the
segment looks like transformations or is missing, or a fall-through. -/
def canonicalDelivery (effCloud nRT : Str) (segs : List Str) (idx : Nat) :
    Option Str → Option (Option Cld)
  | some d =>
    if d ∈ deliveryTypes then
      some (buildResult effCloud nRT d (segs.drop (idx + 2)))
    else if hasCloudinaryTransformations d then
      some (buildResult effCloud nRT (("upload").data) (segs.drop (idx + 1)))
    else none
  | none =>
    some (buildResult effCloud nRT (("upload").data) (segs.drop (idx + 1)))

/-- The tail of the canonical-layout branch, after the optional cloud-name
segment has been consumed: `idx` points at the resource-type segment,
`cloudName` is the consumed segment (empty when none was). -/
def canonicalTail (host : Str) (segs : List Str) (cloudName : Str)
    (idx : Nat) : Option (Option Cld) :=
  let rT := segs.getD idx []
  let nRT := normalizeResourceType rT
  if nRT ∈ resourceTypes ∨ rT = ("images").data then
    canonicalDelivery (if cloudName = [] then host else cloudName) nRT segs idx
      (segs.get? (idx + 1))
  else none

/-- The canonical-layout branch (analyzer.js lines 97–192).  `some r` means
the branch concluded with result `r` (possibly `null`); `none` means fall
through to the fallbacks. -/
def parseCanonical (host : Str) (segs : List Str) : Option (Option Cld) :=
  let s0 := segs.headD []
  if s0 ∉ resourceTypes ∧ normalizeResourceType s0 ≠ ("image").data then
    canonicalTail host segs s0 1
  else canonicalTail host segs [] 0

/-- The explicit-structure fallback scan (lines 201–212): the first index
`i` with a resource-type segment immediately followed by a delivery-type
segment. -/
def findPairIdx : List Str → Option Nat
  | a :: b :: rest =>
    if isResourceSeg a ∧ b ∈ deliveryTypes then some 0
    else (findPairIdx (b :: rest)).map (· + 1)
  | _ => none

/-- The explicit-structure fallback (lines 196–274). -/
def parseExplicit (host : Str) (segs : List Str) : Option (Option Cld) :=
  match findPairIdx segs with
  | none => none
  | some i =>
    let rT := normalizeResourceType (segs.getD i [])
    let dT := segs.getD (i + 1) []
    let cloudName := if i > 0 then segs.getD (i - 1) [] else host
    some (buildResult cloudName rT dT (segs.drop (i + 2)))

/-- `/\.(mp4|webm|mov|avi|wmv|flv|mkv)$/i`. -/
def videoExtTest (s : Str) : Bool :=
  [("mp4").data, ("webm").data, ("mov").data, ("avi").data,
   ("wmv").data, ("flv").data, ("mkv").data].any
    (fun e => ('.' :: e).isSuffixOf (lowerStr s))

/-- The CNAME fallback (lines 276–324): the first comma-friendly segment
with transformations, a file-extension public id after it, resource type
inferred from the extension. -/
def parseCname (host : Str) (segs : List Str) : Option Cld :=
  if segs.length < 2 then none
  else
    match segs.findIdx? (fun s =>
      !(s.contains ';') && hasCloudinaryTransformations s) with
    | none => none
    | some i =>
      let txSeg := segs.getD i []
      let pidSegs := segs.drop (i + 1)
      if pidSegs = [] then none
      else
        let publicId := joinWith '/' pidSegs
        if !(endsWithExt publicId) then none
        else
          some ⟨host,
            (if videoExtTest publicId then ("video").data else ("image").data),
            ("upload").data, publicId, txSeg,
            dedupKeepFirst ((splitOnChar ',' txSeg).filter (fun t => t ≠ []))⟩

/-- The classifier's phase chain over the parsed path's segments: canonical
layout first, then the explicit-structure fallback, then the CNAME
fallback. -/
def classifySegments (host : Str) (segs : List Str) : Option Cld :=
  if segs.length < 2 then none
  else
    match parseCanonical host segs with
    | some r => r
    | none =>
      match parseExplicit host segs with
      | some r => r
      | none => parseCname host segs

/-- `parseCloudinaryUrl` from analyzer.js: URL string to descriptor or
`null`, never throwing. -/
def parseCloudinaryUrl (url : Str) : Option Cld :=
  match urlParse url with
  | none => none
  | some (host, path) => classifySegments host (pathSegments path)

/-! ## ScoreEngine (`finalizeAnalysis`) -/

/-- A response header. -/
structure Header where
  name : Str
  value : Str
deriving DecidableEq, Repr

/-- One entry of `result.cloudinaryRequests`: request URL, the response
headers when a response object with a headers array is present
(`entry.response?.headers`), the descriptor when classification succeeded,
and the originating page URL when tagged by the crawl. -/
structure CldEntry where
  url : Str
  headers : Option (List Header)
  cld : Option Cld
  pageUrl : Option Str
deriving DecidableEq, Repr

/-- The pre-finalize analysis collection (`out` in analyzer.js). -/
structure AnalysisInput where
  totalRequests : Nat
  cloudinaryRequests : List CldEntry
  nonCloudinaryImages : List Str
deriving DecidableEq, Repr

/-- `{ txSet: new Set() }`: the default descriptor used when `entry.cld` is
absent; its missing string fields behave as empty/falsy. -/
def defaultCld : Cld := ⟨[], [], [], [], [], []⟩

/-- `isSvgFile(publicId, url)`. -/
def isSvgFile (publicId url : Str) : Bool :=
  if publicId = [] ∧ url = [] then false
  else
    let check := lowerStr (if publicId ≠ [] then publicId else url)
    containsSub ((".svg?").data) check || ((".svg").data).isSuffixOf check

/-- Membership in the transformation set. -/
def txHas (c : Cld) (t : Str) : Bool := c.txSet.contains t

/-- `q_auto` either plain or as a `q_auto:<mode>` token. -/
def hasQAuto (c : Cld) : Bool :=
  txHas c (("q_auto").data) ||
    c.txSet.any (fun t => (("q_auto:").data).isPrefixOf t)

/-- The per-asset issue strings of analyzer.js. -/
def issueFAuto : Str := ("Enable f_auto to serve modern formats automatically.").data

def issueQAuto : Str := ("Add q_auto to balance bytes vs quality.").data

def issueSizing : Str :=
  ("Add w_, h_, and c_limit transformations to resize images and prevent oversized assets.").data

/-- Exemption from optimization advice: `raw` resource type or SVG public id. -/
def isExemptCld (c : Cld) (url : Str) : Bool :=
  c.resourceType = ("raw").data || isSvgFile c.publicId url

/-- The ordered issue list computed for one asset (lines 354–381). -/
def issuesFor (c : Cld) (url : Str) : List Str :=
  if isExemptCld c url then []
  else
    (if !(txHas c (("f_auto").data)) then [issueFAuto] else []) ++
    (if !(hasQAuto c) then [issueQAuto] else []) ++
    (if !(c.txSet.any (fun t => (("w_").data).isPrefixOf t) ||
          c.txSet.any (fun t => (("h_").data).isPrefixOf t)) then
      [issueSizing] else [])

/-- An element of `perAsset`. -/
structure AnalyzedAsset where
  url : Str
  issues : List Str
  cld : Cld
  pageUrl : Option Str
deriving DecidableEq, Repr

/-- `perAsset` construction for one entry, preserving a truthy `pageUrl`. -/
def mkAsset (e : CldEntry) : AnalyzedAsset :=
  let c := e.cld.getD defaultCld
  ⟨e.url, issuesFor c e.url, c,
    match e.pageUrl with
    | some p => if p = [] then none else some p
    | none => none⟩

/-- Exemption test on an analyzed asset (recomputed at lines 395–399). -/
def isExemptAsset (a : AnalyzedAsset) : Bool := isExemptCld a.cld a.url

/-- "Fully optimized" for scoring (lines 451–459): raw/SVG automatically, or
both `f_auto` and an automatic-quality token. -/
def fullyOptimizedAsset (a : AnalyzedAsset) : Bool :=
  isExemptAsset a || (txHas a.cld (("f_auto").data) && hasQAuto a.cld)

/-- The first `cache-control` response header's value, or empty
(`r.response?.headers?.find?.(...)  ?.value || ""`). -/
def firstCacheControl (e : CldEntry) : Str :=
  match e.headers with
  | none => []
  | some hs =>
    match hs.find? (fun h => lowerStr h.name = ("cache-control").data) with
    | none => []
    | some h => h.value

/-- A cache finding: a non-empty `cache-control` value without `max-age=`
(line 435). -/
def cacheBad (e : CldEntry) : Bool :=
  firstCacheControl e ≠ [] && !(containsSub (("max-age=").data) (firstCacheControl e))

/-- Site-level suggestion strings. -/
def sgFAuto : Str := ("Adopt f_auto to serve modern formats automatically.").data

def sgQAuto : Str := ("Adopt q_auto for balanced quality vs bytes.").data

def sgMigrate : Str :=
  ("Migrate non-Cloudinary images to leverage optimization & CDN.").data

def sgResize (n : Nat) : Str :=
  (("Add w_, h_, and c_limit transformations to ").data) ++ (Nat.repr n).data ++
    ((" image").data) ++ (if n > 1 then ['s'] else []) ++
    ((" to resize and prevent oversized assets.").data)

def sgCache : Str := ("Improve Cache-Control headers on versioned assets.").data

/-- JavaScript `Math.round` on the exact rational value. -/
def jsRound (q : ℚ) : ℤ := ⌊q + 1 / 2⌋

/-- `coverage` in the finalized result. -/
structure Coverage where
  total : Nat
  cloudinary : Nat
  nonCloudinaryImages : Nat
  autoFormat : Nat
  autoQuality : Nat
deriving DecidableEq, Repr

/-- The finalized AnalysisResult. -/
structure AnalysisOutput where
  totalRequests : Nat
  cloudinaryRequests : List CldEntry
  nonCloudinaryImages : List Str
  perAsset : List AnalyzedAsset
  score : ℤ
  suggestions : List Str
  coverage : Coverage
deriving DecidableEq, Repr

/-- `perAsset` (line 352). -/
def perAssetOf (r : AnalysisInput) : List AnalyzedAsset :=
  r.cloudinaryRequests.map mkAsset

/-- `imageVideoAssets` (lines 395–399). -/
def ivAssetsOf (r : AnalysisInput) : List AnalyzedAsset :=
  (perAssetOf r).filter (fun a => !(isExemptAsset a))

/-- `autoFormatCount` (line 402). -/
def afCountOf (r : AnalysisInput) : Nat :=
  ((ivAssetsOf r).filter (fun a => txHas a.cld (("f_auto").data))).length

/-- `autoQualityCount` (line 403). -/
def aqCountOf (r : AnalysisInput) : Nat :=
  ((ivAssetsOf r).filter (fun a => hasQAuto a.cld)).length

/-- `assetsNeedingSizing.length` (lines 420–426). -/
def needSizingOf (r : AnalysisInput) : Nat :=
  ((perAssetOf r).filter (fun a =>
    !(isExemptAsset a) && a.issues.any (fun i =>
      containsSub (("w_, h_, and c_limit").data) i))).length

/-- `optimizedAssets` (lines 451–459). -/
def optimizedOf (r : AnalysisInput) : Nat :=
  ((perAssetOf r).filter fullyOptimizedAsset).length

/-- The suggestion `Set` in insertion order (lines 392–439); each condition
inserts its distinct string at most once, in program order. -/
def suggestionsOf (r : AnalysisInput) : List Str :=
  (if (ivAssetsOf r).length > 0 ∧
      (afCountOf r : ℚ) / (ivAssetsOf r).length < 4 / 5 then [sgFAuto] else []) ++
  (if (ivAssetsOf r).length > 0 ∧
      (aqCountOf r : ℚ) / (ivAssetsOf r).length < 4 / 5 then [sgQAuto] else []) ++
  (if r.nonCloudinaryImages.length > 0 then [sgMigrate] else []) ++
  (if needSizingOf r > 0 then [sgResize (needSizingOf r)] else []) ++
  (if r.cloudinaryRequests.any cacheBad then [sgCache] else [])

/-- The pre-round, pre-clamp score value (lines 443–477). -/
def rawScoreOf (r : AnalysisInput) : ℚ :=
  if (perAssetOf r).length = 0 then 0
  else if r.totalRequests = 0 then 0
  else (((perAssetOf r).length : ℚ) / r.totalRequests * 100) * (1 / 2) +
       ((optimizedOf r : ℚ) / (perAssetOf r).length * 100) * (1 / 2)

/-- `Math.max(0, Math.min(100, Math.round(score)))` (line 479). -/
def scoreOf (r : AnalysisInput) : ℤ :=
  max 0 (min 100 (jsRound (rawScoreOf r)))

/-- `finalizeAnalysis` from analyzer.js (lines 351–494). -/
def finalizeAnalysis (r : AnalysisInput) : AnalysisOutput :=
  { totalRequests := r.totalRequests
    cloudinaryRequests := r.cloudinaryRequests
    nonCloudinaryImages := r.nonCloudinaryImages
    perAsset := perAssetOf r
    score := scoreOf r
    suggestions := suggestionsOf r
    coverage := ⟨r.totalRequests, (perAssetOf r).length,
      r.nonCloudinaryImages.length, afCountOf r, aqCountOf r⟩ }

/-! ## AssetExtractor: capture (HAR) mode and markup mode -/

/-- The substring alternatives of `NON_MEDIA_PATTERNS` (all `/i`), given
lowercase. -/
def nonMediaNeedles : List Str :=
  [("doubleclick.net").data, ("google-analytics.com").data,
   ("googletagmanager.com").data, ("facebook.net").data,
   ("bidswitch.net").data, ("adsrvr.org").data, ("adtechus.com").data,
   ("adnxs.com").data, ("rubiconproject.com").data, ("openx.net").data,
   ("pubmatic.com").data, ("analytics").data, ("tracking").data,
   ("pixel").data, ("beacon").data, ("/activity").data, ("/collect").data,
   ("/event").data, ("/log").data, ("/sync").data, ("/api/").data,
   ("/ads/").data, ("/ad/").data, ("/track").data, ("/imp").data,
   ("/click").data, ("dsp_id").data, ("user_id").data, ("pixel_id").data,
   ("campaign_id").data]

/-- `/\.ext(\?|$)/i` on an already lower-cased string. -/
def extStopTest (ext low : Str) : Bool :=
  containsSub ('.' :: ext ++ ['?']) low || ('.' :: ext).isSuffixOf low

/-- The non-media file-extension patterns (`.json/.xml/.txt/.js/.css`). -/
def nonMediaExts : List Str :=
  [("json").data, ("xml").data, ("txt").data, ("js").data, ("css").data]

/-- The alternatives of `MEDIA_EXTENSIONS` (with `jpe?g` and `tiff?`
expanded). -/
def mediaExts : List Str :=
  [("png").data, ("jpg").data, ("jpeg").data, ("gif").data, ("webp").data,
   ("avif").data, ("svg").data, ("mp4").data, ("webm").data, ("mov").data,
   ("avi").data, ("wmv").data, ("flv").data, ("mkv").data, ("pdf").data,
   ("zip").data, ("doc").data, ("docx").data, ("xls").data, ("xlsx").data,
   ("ppt").data, ("pptx").data, ("txt").data, ("json").data, ("xml").data,
   ("ico").data, ("bmp").data, ("tif").data, ("tiff").data, ("heic").data,
   ("heif").data]

/-- `isMediaFile(url, mimeType)` from analyzer.js. -/
def isMediaFile (url mime : Str) : Bool :=
  if url = [] then false
  else
    let low := lowerStr url
    if (("data:").data).isPrefixOf low then false
    else if nonMediaNeedles.any (fun n => containsSub n low) then false
    else if nonMediaExts.any (fun e => extStopTest e low) then false
    else if mediaExts.any (fun e => extStopTest e low) then true
    else if mime ≠ [] ∧
        (((("image/").data).isPrefixOf mime) || ((("video/").data).isPrefixOf mime)) then
      true
    else false

/-- `hasCloudinaryResponseHeaders(response)`: any `x-cld-` header name, a
`server` header (last one wins in the lookup map) containing `cloudinary`,
or an `x-cloudinary-request-id` header. -/
def hasCloudinaryResponseHeaders (headers : Option (List Header)) : Bool :=
  match headers with
  | none => false
  | some hs =>
    if hs.any (fun h =>
        lowerStr h.name ≠ [] && (("x-cld-").data).isPrefixOf (lowerStr h.name)) then
      true
    else
      let server :=
        match (hs.filter (fun h => lowerStr h.name = ("server").data)).getLast? with
        | some h => h.value
        | none => []
      if containsSub (("cloudinary").data) (lowerStr server) then true
      else hs.any (fun h => lowerStr h.name = ("x-cloudinary-request-id").data)

/-- One entry of a capture document: request URL, response MIME type,
response headers. -/
structure HarEntry where
  url : Str
  mimeType : Str
  headers : Option (List Header)
deriving DecidableEq, Repr

/-- Capture-mode acceptance: classification succeeded and (header evidence
or non-empty transformation set) — line 507 of analyzer.js. -/
def harIsCloudinary (e : HarEntry) : Bool :=
  match parseCloudinaryUrl e.url with
  | some c => hasCloudinaryResponseHeaders e.headers || c.txSet ≠ []
  | none => false

/-- The collection loop of `analyzeFromHar` (lines 496–513). -/
def harCollect (entries : List HarEntry) : AnalysisInput :=
  ⟨entries.length,
   entries.filterMap (fun e =>
     if harIsCloudinary e then
       some ⟨e.url, e.headers, parseCloudinaryUrl e.url, none⟩
     else none),
   entries.filterMap (fun e =>
     if harIsCloudinary e then none
     else if isMediaFile e.url e.mimeType then some e.url else none)⟩

/-- `analyzeFromHar` (over the already-extracted entry list). -/
def analyzeFromHar (entries : List HarEntry) : AnalysisOutput :=
  finalizeAnalysis (harCollect entries)

/-- A markup element with its source-bearing attributes, as selected by
`querySelectorAll("img, source, video, picture source")`.  The DOM parsing
itself is a platform API; the element list is taken as input. -/
structure HtmlEl where
  src : Option Str
  srcset : Option Str
  dataSrc : Option Str
deriving DecidableEq, Repr

/-- `el.getAttribute("src") || el.getAttribute("srcset") ||
el.getAttribute("data-src") || ""`: the first truthy attribute. -/
def rawOf (el : HtmlEl) : Str :=
  let a := (el.src).getD []
  if a ≠ [] then a
  else
    let b := (el.srcset).getD []
    if b ≠ [] then b else (el.dataSrc).getD []

/-- `String(raw).split(/\s+/)[0]`: the longest whitespace-free prefix. -/
def firstCandidate (raw : Str) : Str :=
  raw.takeWhile (fun c => !(c.isWhitespace))

/-- The collection loop of `analyzeFromHtml` (lines 518–537): a URL is
pushed to `cloudinaryRequests` whenever classification succeeds. -/
def htmlCollect (els : List HtmlEl) : AnalysisInput :=
  ⟨els.length,
   els.filterMap (fun el =>
     let raw := rawOf el
     if raw = [] then none
     else
       match parseCloudinaryUrl (firstCandidate raw) with
       | some c => some ⟨firstCandidate raw, none, some c, none⟩
       | none => none),
   els.filterMap (fun el =>
     let raw := rawOf el
     if raw = [] then none
     else
       match parseCloudinaryUrl (firstCandidate raw) with
       | some _ => none
       | none =>
         if isMediaFile (firstCandidate raw) [] then some (firstCandidate raw)
         else none)⟩

/-- `analyzeFromHtml` (over the parsed element list). -/
def analyzeFromHtml (els : List HtmlEl) : AnalysisOutput :=
  finalizeAnalysis (htmlCollect els)

/-! ## ProxyRelay failures and sitemap discovery (App.jsx) -/

/-- A failed `fetchThroughWorker` call: a non-2xx relay response (with the
parsed JSON `error` field when the body parsed, else the status text used
as the error), or a client-side timeout/abort. -/
inductive RelayFailure where
  | httpError (status : Nat) (statusText : Str) (jsonError : Option Str)
  | timeout
deriving DecidableEq, Repr

/-- The error message thrown by `fetchThroughWorker` (App.jsx lines
391–407): `errorData.error || "HTTP <status>: <statusText>"`, where an
unparsable body yields `errorData.error = response.statusText`; aborts
become `"Request timeout"`. -/
def relayMessage : RelayFailure → Str
  | .httpError status statusText jsonError =>
    let fallback := ("HTTP ").data ++ (Nat.repr status).data ++
      ((": ").data) ++ statusText
    (match jsonError with
     | some e => if e ≠ [] then e else fallback
     | none => if statusText ≠ [] then statusText else fallback)
  | .timeout => ("Request timeout").data

/-- `parseRobotsTxt` (App.jsx lines 412–425). -/
def parseRobotsTxt (txt : Str) : List Str :=
  (splitOnChar '\n' txt).filterMap (fun line =>
    let t := jsTrim line
    if (("sitemap:").data).isPrefixOf (lowerStr t) then
      let u := jsTrim (t.drop 8)
      if u ≠ [] then some u else none
    else none)

/-- The shape `parseSitemap` (App.jsx lines 712–732) extracts from a fetched
XML document: a sitemap index (child sitemap URLs) or a url-set (page
URLs).  An unparsable document appears as `urlset []`.  XML parsing itself
is a platform API (`DOMParser`); the parsed shape is taken as input. -/
inductive SitemapDoc where
  | index (children : List Str)
  | urlset (urls : List Str)
deriving DecidableEq, Repr

/-- The `urls` field of a parse result (present for both shapes). -/
def docUrls : SitemapDoc → List Str
  | .index cs => cs
  | .urlset us => us

/-- The network environment of one sitemap-discovery run: the outcomes of
the robots.txt fetch, of the fetch-and-parse of the default
`/sitemap.xml`, of the fetch of a robots-declared sitemap URL, and of the
fetch of the first child sitemap of an index. -/
structure SitemapEnv where
  robots : Except RelayFailure Str
  defaultDoc : Except RelayFailure SitemapDoc
  declaredDoc : Except RelayFailure SitemapDoc
  childDoc : Except RelayFailure SitemapDoc
deriving Repr

/-- Resolve a found sitemap document to the url-set to analyze, following
at most the first child of an index (App.jsx lines 860–874).  A failure of
the child fetch propagates. -/
def followDoc (env : SitemapEnv) : SitemapDoc → Except RelayFailure (List Str)
  | .urlset us => .ok us
  | .index cs =>
    if cs ≠ [] then
      match env.childDoc with
      | .error e => .error e
      | .ok child => .ok (docUrls child)
    else .ok []

/-- Sitemap discovery (App.jsx lines 810–874): `ok none` means no sitemap
found (single-page fallback); `ok (some urls)` is the discovered url-set
(the caller also falls back when it is empty); `error` is a failure that
escapes to the top-level catch as a hard error.  The robots.txt fetch and
the default `/sitemap.xml` fetch are guarded by local try/catch blocks; the
fetch of a robots-declared sitemap URL and of the first child sitemap are
not. -/
def discoverUrls (env : SitemapEnv) : Except RelayFailure (Option (List Str)) :=
  let robotsSitemaps :=
    match env.robots with
    | .ok txt => parseRobotsTxt txt
    | .error _ => []
  if robotsSitemaps ≠ [] then
    match env.declaredDoc with
    | .error e => .error e
    | .ok doc =>
      match followDoc env doc with
      | .error e => .error e
      | .ok us => .ok (some us)
  else
    match env.defaultDoc with
    | .error _ => .ok none
    | .ok doc =>
      if docUrls doc ≠ [] then
        match followDoc env doc with
        | .error e => .error e
        | .ok us => .ok (some us)
      else .ok none

/-! ## CrawlOrchestrator: sampling, the page loop, compilation -/

/-- Page sampling (App.jsx lines 879–882): the first `min(10, n)` entries of
a shuffled copy of the url-set.  The shuffle (`sort(() => Math.random() -
0.5)`) produces some permutation of the list; the permutation is supplied
as the already-shuffled list, constrained by a `Perm` hypothesis in the
theorems. -/
def selectPages (shuffled : List Str) : List Str :=
  shuffled.take (min 10 shuffled.length)

/-- `toFixed(1)` on an exact non-negative rational: nearest multiple of
1/10, ties up. -/
def toFixed1 (q : ℚ) : Str :=
  let n : ℤ := ⌊q * 10 + 1 / 2⌋
  let m := n.toNat
  (Nat.repr (m / 10)).data ++ ['.'] ++ (Nat.repr (m % 10)).data

/-- The sitemap-analysis result (`compileSitemapResults`'s extra fields). -/
structure SitemapOutput where
  base : AnalysisOutput
  pagesAnalyzed : Nat
  totalPagesInSitemap : Nat
  percentage : Str
deriving DecidableEq, Repr

/-- `compileSitemapResults(pageResults, totalPages)` (App.jsx lines
734–768): merge the per-page collections (tagging each Cloudinary request
with its page URL), finalize once, and attach sampling metadata computed
from the number of successfully analyzed pages. -/
def compileSitemapResults (pageResults : List (Str × AnalysisOutput))
    (totalPages : Nat) : SitemapOutput :=
  let totalRequests := (pageResults.map (fun p => p.2.totalRequests)).sum
  let allCld := pageResults.flatMap (fun p =>
    p.2.cloudinaryRequests.map (fun req => { req with pageUrl := some p.1 }))
  let allNon := pageResults.flatMap (fun p => p.2.nonCloudinaryImages)
  ⟨finalizeAnalysis ⟨totalRequests, allCld, allNon⟩,
   pageResults.length, totalPages,
   if totalPages > 0 then
     toFixed1 ((pageResults.length : ℚ) / totalPages * 100)
   else ("0.0").data⟩

/-- What one page fetch does: the relay returns markup (parsed to its
element list) or fails. -/
inductive FetchOutcome where
  | success (els : List HtmlEl)
  | failure (err : RelayFailure)
deriving Repr

/-- The mutable loop state (`allResults` and the progress lists), plus a
ghost counter of issued `fetchThroughWorker` calls. -/
structure CrawlState where
  results : List (Str × AnalysisOutput)
  completed : List Str
  failed : List (Str × Str)
  fetched : Nat
deriving Repr

def CrawlState.init : CrawlState := ⟨[], [], [], 0⟩

/-- The outcome of the page loop: cancelled (no aggregate result compiled)
or done with the compiled aggregate. -/
inductive CrawlOutcome where
  | cancelled (st : CrawlState)
  | done (st : CrawlState) (compiled : SitemapOutput)
deriving Repr

/-- The sequential page loop of App.jsx (lines 896–941) followed by the
final cancellation check (line 934) and compilation (line 937).  The
cancellation flag is owned by the invocation and only ever set; it is
modelled by the first checkpoint time `T` at which it reads true, with
checkpoint `2*i` the check at the top of iteration `i` (line 900) and
`2*i+1` the check after iteration `i`'s fetch returns (line 912); the check
after the loop is checkpoint `2*n`.  A failed fetch is caught: the page and
its error message are appended to `failed` and the loop continues. -/
def runPages (T totalPages : Nat) :
    Nat → List (Str × FetchOutcome) → CrawlState → CrawlOutcome
  | i, [], st =>
    if T ≤ 2 * i then .cancelled st
    else .done st (compileSitemapResults st.results totalPages)
  | i, (u, oc) :: rest, st =>
    if T ≤ 2 * i then .cancelled st
    else
      match oc with
      | .failure err =>
        runPages T totalPages (i + 1) rest
          { st with failed := st.failed ++ [(u, relayMessage err)],
                    fetched := st.fetched + 1 }
      | .success els =>
        if T ≤ 2 * i + 1 then .cancelled { st with fetched := st.fetched + 1 }
        else
          runPages T totalPages (i + 1) rest
            { st with
              results := st.results ++ [(u, analyzeFromHtml els)],
              completed := st.completed ++ [u],
              fetched := st.fetched + 1 }

/-- The whole sampled-pages run: select pages from the shuffled url-set,
run the loop from index 0 with an empty state. -/
def runCrawl (T : Nat) (shuffled : List Str) (outcomes : List FetchOutcome) :
    CrawlOutcome :=
  let pages := (selectPages shuffled).zip outcomes
  runPages T shuffled.length 0 pages CrawlState.init

/-! ## Spec-side definitions (for refinement comparison)

These two definitions follow the specification's words for the score
formula, to be compared with the code-derived `finalizeAnalysis`. -/

/-- Spec side: "an asset is fully optimized iff its transformation set
contains `f_auto` and either `q_auto` or a token starting with `q_auto:`,
with raw and SVG assets counting as fully optimized automatically". -/
def specFullyOptimized (e : CldEntry) : Bool :=
  let c := e.cld.getD defaultCld
  c.resourceType = ("raw").data || isSvgFile c.publicId e.url ||
    (c.txSet.contains (("f_auto").data) &&
      (c.txSet.contains (("q_auto").data) ||
        c.txSet.any (fun t => (("q_auto:").data).isPrefixOf t)))

/-- Spec side: "score 0 when the CDN-asset count is zero or the
total-request count is zero, and otherwise
round(0.5*(cdn/total*100) + 0.5*(fullyOptimized/cdn*100)) clamped to
[0,100]". -/
def specScore (r : AnalysisInput) : ℤ :=
  let cdn := r.cloudinaryRequests.length
  let tot := r.totalRequests
  let fo := (r.cloudinaryRequests.filter specFullyOptimized).length
  if cdn = 0 ∨ tot = 0 then 0
  else
    max 0 (min 100 (jsRound
      ((1 / 2) * ((cdn : ℚ) / tot * 100) + (1 / 2) * ((fo : ℚ) / cdn * 100))))

/-! ## Concrete scenario inputs -/

/-- A CDN image asset carrying `f_auto,q_auto`. -/
def optimizedEntry : CldEntry :=
  ⟨("https://res.cloudinary.com/demo/image/upload/f_auto,q_auto/sample.jpg").data,
   none,
   some ⟨("demo").data, ("image").data, ("upload").data, ("sample.jpg").data,
     ("f_auto,q_auto").data, [("f_auto").data, ("q_auto").data]⟩,
   none⟩

/-- The spec's score scenario: 10 total assets, 5 CDN image assets all
carrying `f_auto,q_auto`, 5 non-CDN images. -/
def scenarioTen : AnalysisInput :=
  ⟨10, List.replicate 5 optimizedEntry,
   List.replicate 5 (("https://example.com/a.jpg").data)⟩

/-- A markup element whose URL classifies with an empty transformation set. -/
def plainUploadEl : HtmlEl :=
  ⟨some (("/cloud/image/upload/sample.jpg").data), none, none⟩

/-- A CDN request whose first `cache-control` header contains `max-age=`
while a second one does not. -/
def doubleCacheEntry : CldEntry :=
  ⟨("https://res.cloudinary.com/demo/image/upload/f_auto,q_auto/sample.jpg").data,
   some [⟨("Cache-Control").data, ("max-age=60").data⟩,
         ⟨("Cache-Control").data, ("no-store").data⟩],
   some ⟨("demo").data, ("image").data, ("upload").data, ("sample.jpg").data,
     ("f_auto,q_auto").data, [("f_auto").data, ("q_auto").data]⟩,
   none⟩

/-- The descriptor produced for `/cloud/image/upload/sample.jpg`: a
successful classification with an empty transformation set. -/
def plainUploadCld : Cld :=
  ⟨("cloud").data, ("image").data, ("upload").data, ("sample.jpg").data, [], []⟩

/-- The descriptor produced for
`/cloud/image/upload/f_auto,q_auto,w_500/sample.jpg`. -/
def sampleCld : Cld :=
  ⟨("cloud").data, ("image").data, ("upload").data, ("sample.jpg").data,
   ("f_auto,q_auto,w_500").data,
   [("f_auto").data, ("q_auto").data, ("w_500").data]⟩

/-! ## Crawl-outcome inspection and concrete crawl scenarios -/

/-- The successfully analyzed pages, in order (`allResults`). -/
def pageSuccesses : List (Str × FetchOutcome) → List (Str × AnalysisOutput)
  | [] => []
  | (u, .success els) :: rest => (u, analyzeFromHtml els) :: pageSuccesses rest
  | (_, .failure _) :: rest => pageSuccesses rest

/-- The failed pages with their error messages, in order (`failed`). -/
def pageFailures : List (Str × FetchOutcome) → List (Str × Str)
  | [] => []
  | (u, .failure e) :: rest => (u, relayMessage e) :: pageFailures rest
  | (_, .success _) :: rest => pageFailures rest

/-- The loop state an outcome ends with. -/
def finalState : CrawlOutcome → CrawlState
  | .cancelled st => st
  | .done st _ => st

/-- Did the run end in the Cancelled state? -/
def isCancelled : CrawlOutcome → Bool
  | .cancelled _ => true
  | .done _ _ => false

/-- The sampling metadata of a completed run (`none` when cancelled). -/
def outcomeStats : CrawlOutcome → Option (Nat × Nat × Str)
  | .done _ out => some (out.pagesAnalyzed, out.totalPagesInSitemap, out.percentage)
  | .cancelled _ => none

/-- `n` page URLs `p1`, ..., `pn`. -/
def pageNames (n : Nat) : List Str :=
  (List.range n).map (fun k => 'p' :: (Nat.repr (k + 1)).data)

/-- A relay error as produced by a 403 response with an unparsable body. -/
def relay403 : RelayFailure := .httpError 403 (("Forbidden").data) none

/-- Ten sampled pages of which the first fails with a 403 relay error. -/
def pagesOneFail : List (Str × FetchOutcome) :=
  (('p' :: ("1").data), .failure relay403) ::
    (pageNames 10).tail.map (fun u => (u, .success []))

/-- A sitemap environment whose robots.txt declares a sitemap whose fetch
then fails. -/
def failDeclaredEnv : SitemapEnv :=
  ⟨.ok (("Sitemap: https://site.example/sm.xml").data),
   .ok (.urlset []),
   .error (.httpError 500 (("Internal Server Error").data) none),
   .ok (.urlset [])⟩

/-- Ten fetch outcomes whose first is a 403 relay error. -/
def outsOneFail : List FetchOutcome :=
  .failure relay403 :: List.replicate 9 (.success [])

/-- Ten successful fetch outcomes. -/
def outsAllOk : List FetchOutcome := List.replicate 10 (.success [])

/-! ## Helper lemmas -/

theorem jsRound_zero : jsRound 0 = 0 := by norm_num [jsRound]

theorem perm_any {α : Type} {l₁ l₂ : List α} (h : l₁.Perm l₂) (p : α → Bool) :
    l₁.any p = l₂.any p := by
  induction h with
  | nil => rfl
  | cons x _ ih => simp [ih]
  | swap x y l => simp [Bool.or_left_comm]
  | trans _ _ ih1 ih2 => exact ih1.trans ih2

/-- The code's score equals the specification's formula. -/
theorem finalize_score_eq_spec (r : AnalysisInput) :
    (finalizeAnalysis r).score = specScore r := by
  have hlen : (perAssetOf r).length = r.cloudinaryRequests.length := by
    simp [perAssetOf]
  have hopt : optimizedOf r =
      (r.cloudinaryRequests.filter specFullyOptimized).length := by
    simp only [optimizedOf, perAssetOf, ← List.countP_eq_length_filter,
      List.countP_map]
    rfl
  show scoreOf r = specScore r
  unfold scoreOf specScore rawScoreOf
  rw [hlen, hopt]
  by_cases h1 : r.cloudinaryRequests.length = 0
  · rw [if_pos h1, if_pos (Or.inl h1), jsRound_zero]
    norm_num
  · by_cases h2 : r.totalRequests = 0
    · rw [if_neg h1, if_pos h2, if_pos (Or.inr h2), jsRound_zero]
      norm_num
    · rw [if_neg h1, if_neg h2, if_neg (by tauto)]
      congr 2
      ring_nf

theorem scenarioTen_counts :
    (perAssetOf scenarioTen).length = 5 ∧ optimizedOf scenarioTen = 5 ∧
      scenarioTen.totalRequests = 10 := by decide

theorem sgResize_ne_sgCache (n : Nat) : sgResize n ≠ sgCache := by
  intro h
  have h2 := congrArg List.head? h
  rw [show (sgResize n).head? = some 'A' from rfl,
      show sgCache.head? = some 'I' from rfl] at h2
  exact absurd h2 (by decide)

/-- The cache suggestion appears exactly when some CDN request's first
`cache-control` header is suboptimal. -/
theorem sgCache_mem_iff (r : AnalysisInput) :
    sgCache ∈ (finalizeAnalysis r).suggestions ↔
      r.cloudinaryRequests.any cacheBad = true := by
  have h1 : sgCache ≠ sgFAuto := by decide
  have h2 : sgCache ≠ sgQAuto := by decide
  have h3 : sgCache ≠ sgMigrate := by decide
  have h4 : sgCache ≠ sgResize (needSizingOf r) := fun h =>
    sgResize_ne_sgCache _ h.symm
  show sgCache ∈ suggestionsOf r ↔ _
  unfold suggestionsOf
  split_ifs <;> simp_all [h1, h2, h3, h4]

theorem sgCache_count_le_one (r : AnalysisInput) :
    (finalizeAnalysis r).suggestions.count sgCache ≤ 1 := by
  have h1 : sgCache ≠ sgFAuto := by decide
  have h2 : sgCache ≠ sgQAuto := by decide
  have h3 : sgCache ≠ sgMigrate := by decide
  have h4 : sgCache ≠ sgResize (needSizingOf r) := fun h =>
    sgResize_ne_sgCache _ h.symm
  show (suggestionsOf r).count sgCache ≤ 1
  unfold suggestionsOf
  split_ifs <;> simp [List.count_append, List.count_cons, h1, h2, h3, h4]

/-- Without cancellation, the loop records every success and every failure. -/
theorem runPages_complete (T tp : Nat) :
    ∀ (pages : List (Str × FetchOutcome)) (i : Nat) (st : CrawlState),
      2 * (i + pages.length) < T →
      runPages T tp i pages st =
        .done ⟨st.results ++ pageSuccesses pages,
               st.completed ++ (pageSuccesses pages).map Prod.fst,
               st.failed ++ pageFailures pages,
               st.fetched + pages.length⟩
          (compileSitemapResults (st.results ++ pageSuccesses pages) tp) := by
  intro pages
  induction pages with
  | nil =>
    intro i st h
    simp only [List.length_nil, Nat.add_zero] at h
    simp [runPages, Nat.not_le.mpr h, pageSuccesses, pageFailures]
  | cons p rest ih =>
    intro i st h
    obtain ⟨u, oc⟩ := p
    have h0 : ¬ (T ≤ 2 * i) := by omega
    cases oc with
    | failure err =>
      show runPages T tp i ((u, .failure err) :: rest) st = _
      rw [runPages, if_neg h0]
      rw [ih (i + 1) _ (by simp at h ⊢; omega)]
      simp [pageSuccesses, pageFailures, List.append_assoc]
      omega
    | success els =>
      show runPages T tp i ((u, .success els) :: rest) st = _
      rw [runPages, if_neg h0]
      have h1 : ¬ (T ≤ 2 * i + 1) := by simp at h; omega
      rw [if_neg h1]
      rw [ih (i + 1) _ (by simp at h ⊢; omega)]
      simp [pageSuccesses, pageFailures, List.append_assoc]
      omega

/-- Ghost fetch counter: exactly the iterations whose pre-fetch check ran
before the flag was set issue a fetch. -/
theorem runPages_fetched (T tp : Nat) :
    ∀ (pages : List (Str × FetchOutcome)) (i : Nat) (st : CrawlState),
      (finalState (runPages T tp i pages st)).fetched =
        st.fetched + min pages.length ((T + 1) / 2 - i) := by
  intro pages
  induction pages with
  | nil =>
    intro i st
    simp only [runPages]
    split <;> simp [finalState]
  | cons p rest ih =>
    intro i st
    obtain ⟨u, oc⟩ := p
    cases oc with
    | failure err =>
      rw [show runPages T tp i ((u, .failure err) :: rest) st =
          (if T ≤ 2 * i then .cancelled st else
            runPages T tp (i + 1) rest
              { st with failed := st.failed ++ [(u, relayMessage err)],
                        fetched := st.fetched + 1 }) from rfl]
      by_cases h0 : T ≤ 2 * i
      · rw [if_pos h0]
        have : (T + 1) / 2 - i = 0 := by omega
        simp [finalState, this]
      · rw [if_neg h0, ih]
        simp only [List.length_cons]
        omega
    | success els =>
      rw [show runPages T tp i ((u, .success els) :: rest) st =
          (if T ≤ 2 * i then .cancelled st else
            if T ≤ 2 * i + 1 then .cancelled { st with fetched := st.fetched + 1 }
            else runPages T tp (i + 1) rest
              { st with
                results := st.results ++ [(u, analyzeFromHtml els)],
                completed := st.completed ++ [u],
                fetched := st.fetched + 1 }) from rfl]
      by_cases h0 : T ≤ 2 * i
      · rw [if_pos h0]
        have : (T + 1) / 2 - i = 0 := by omega
        simp [finalState, this]
      · rw [if_neg h0]
        by_cases h1 : T ≤ 2 * i + 1
        · rw [if_pos h1]
          have : (T + 1) / 2 - i = 1 := by omega
          simp [finalState, this]
        · rw [if_neg h1, ih]
          simp only [List.length_cons]
          omega

/-- The run ends Cancelled exactly when the flag was set by the final
checkpoint. -/
theorem runPages_cancelled (T tp : Nat) :
    ∀ (pages : List (Str × FetchOutcome)) (i : Nat) (st : CrawlState),
      isCancelled (runPages T tp i pages st) =
        decide (T ≤ 2 * (i + pages.length)) := by
  intro pages
  induction pages with
  | nil =>
    intro i st
    simp only [runPages]
    split <;> simp_all [isCancelled]
  | cons p rest ih =>
    intro i st
    obtain ⟨u, oc⟩ := p
    cases oc with
    | failure err =>
      rw [show runPages T tp i ((u, .failure err) :: rest) st =
          (if T ≤ 2 * i then .cancelled st else
            runPages T tp (i + 1) rest
              { st with failed := st.failed ++ [(u, relayMessage err)],
                        fetched := st.fetched + 1 }) from rfl]
      by_cases h0 : T ≤ 2 * i
      · rw [if_pos h0]
        simp only [isCancelled, List.length_cons]
        have : T ≤ 2 * (i + (rest.length + 1)) := by omega
        simp [this]
      · rw [if_neg h0, ih]
        simp only [List.length_cons]
        have he : i + 1 + rest.length = i + (rest.length + 1) := by omega
        rw [he]
    | success els =>
      rw [show runPages T tp i ((u, .success els) :: rest) st =
          (if T ≤ 2 * i then .cancelled st else
            if T ≤ 2 * i + 1 then .cancelled { st with fetched := st.fetched + 1 }
            else runPages T tp (i + 1) rest
              { st with
                results := st.results ++ [(u, analyzeFromHtml els)],
                completed := st.completed ++ [u],
                fetched := st.fetched + 1 }) from rfl]
      by_cases h0 : T ≤ 2 * i
      · rw [if_pos h0]
        simp only [isCancelled, List.length_cons]
        have : T ≤ 2 * (i + (rest.length + 1)) := by omega
        simp [this]
      · rw [if_neg h0]
        by_cases h1 : T ≤ 2 * i + 1
        · rw [if_pos h1]
          simp only [isCancelled, List.length_cons]
          have : T ≤ 2 * (i + (rest.length + 1)) := by omega
          simp [this]
        · rw [if_neg h1, ih]
          simp only [List.length_cons]
          have he : i + 1 + rest.length = i + (rest.length + 1) := by omega
          rw [he]

/-- Every relay failure carries a non-empty human-readable message. -/
theorem relayMessage_ne_nil (f : RelayFailure) : relayMessage f ≠ [] := by
  cases f with
  | httpError status statusText jsonError =>
    cases jsonError with
    | some e =>
      by_cases he : e = []
      · simp [relayMessage, he]
      · simp [relayMessage, he]
    | none =>
      by_cases hs : statusText = []
      · simp [relayMessage, hs]
      · simp [relayMessage, hs]
  | timeout => simp [relayMessage]

theorem pageFailures_msg_ne_nil :
    ∀ pages : List (Str × FetchOutcome), ∀ p ∈ pageFailures pages, p.2 ≠ [] := by
  intro pages
  induction pages with
  | nil => simp [pageFailures]
  | cons q rest ih =>
    obtain ⟨u, oc⟩ := q
    cases oc with
    | failure err =>
      intro p hp
      rw [show pageFailures ((u, .failure err) :: rest) =
          (u, relayMessage err) :: pageFailures rest from rfl,
        List.mem_cons] at hp
      rcases hp with hp | hp
      · rw [hp]
        exact relayMessage_ne_nil err
      · exact ih p hp
    | success els =>
      intro p hp
      rw [show pageFailures ((u, .success els) :: rest) =
          pageFailures rest from rfl] at hp
      exact ih p hp

theorem toFixed1_nat_eval (q : ℚ) (n : ℕ) (h : ⌊q * 10 + 1 / 2⌋ = (n : ℤ)) :
    toFixed1 q = (Nat.repr (n / 10)).data ++ ['.'] ++ (Nat.repr (n % 10)).data := by
  unfold toFixed1
  rw [h]
  simp only [Int.toNat_natCast]

theorem toFixed1_9_37 :
    toFixed1 (((9:ℕ) : ℚ) / ((37:ℕ) : ℚ) * 100) = ("24.3").data := by
  rw [toFixed1_nat_eval _ 243 (by push_cast; norm_num)]
  decide

theorem toFixed1_10_37 :
    toFixed1 (((10:ℕ) : ℚ) / ((37:ℕ) : ℚ) * 100) = ("27.0").data := by
  rw [toFixed1_nat_eval _ 270 (by push_cast; norm_num)]
  decide

theorem pageSuccesses_length_all (pages : List (Str × FetchOutcome))
    (h : ∀ p ∈ pages, ∃ els, p.2 = .success els) :
    (pageSuccesses pages).length = pages.length := by
  induction pages with
  | nil => rfl
  | cons q rest ih =>
    obtain ⟨u, oc⟩ := q
    cases oc with
    | failure err =>
      exact absurd (h (u, .failure err) (List.mem_cons_self _ _)) (by simp)
    | success els =>
      rw [show pageSuccesses ((u, .success els) :: rest) =
          (u, analyzeFromHtml els) :: pageSuccesses rest from rfl]
      simp only [List.length_cons]
      rw [ih (fun p hp => h p (List.mem_cons_of_mem _ hp))]


theorem get?_eq_some_getD (l : List Str) (n : Nat) (h : n < l.length) :
    l.get? n = some (l.getD n []) := by
  rw [List.getD_eq_getElem?_getD]
  cases hg : l[n]? with
  | none => exact absurd (List.getElem?_eq_none_iff.mp hg) (by omega)
  | some v => simp [List.get?_eq_getElem?, hg]

theorem mem_zip_tail :
    ∀ (segs : List Str) (i : Nat) (a b : Str),
      segs.get? i = some a → segs.get? (i + 1) = some b →
      (a, b) ∈ segs.zip segs.tail := by
  intro segs
  induction segs with
  | nil => intro i a b h; simp at h
  | cons x rest ih =>
    intro i a b ha hb
    cases i with
    | zero =>
      simp at ha
      cases rest with
      | nil => simp at hb
      | cons y t =>
        simp at hb
        rw [ha, ← hb]
        exact List.mem_cons_self _ _
    | succ j =>
      simp only [List.get?_cons_succ] at ha hb
      have := ih j a b ha hb
      cases rest with
      | nil => simp at ha
      | cons y t =>
        show (a, b) ∈ (x, y) :: (y :: t).zip t
        exact List.mem_cons_of_mem _ this

theorem findPairIdx_eq_none :
    ∀ (segs : List Str),
      (∀ p ∈ segs.zip segs.tail,
        ¬(isResourceSeg p.1 = true ∧ p.2 ∈ deliveryTypes)) →
      findPairIdx segs = none := by
  intro segs
  induction segs with
  | nil => intro _; rfl
  | cons a rest ih =>
    intro h
    cases rest with
    | nil => rfl
    | cons b t =>
      show findPairIdx (a :: b :: t) = none
      rw [findPairIdx]
      rw [if_neg (h (a, b) (List.mem_cons_self _ _))]
      have : findPairIdx (b :: t) = none := by
        apply ih
        intro p hp
        exact h p (List.mem_cons_of_mem _ hp)
      rw [this]
      rfl

theorem canonicalTail_null (host : Str) (segs : List Str) (cloudName : Str)
    (idx : Nat) (hidx : idx < segs.length)
    (hP : ∀ p ∈ segs.zip segs.tail,
      ¬(isResourceSeg p.1 = true ∧ p.2 ∈ deliveryTypes))
    (hT : ∀ s ∈ segs, hasCloudinaryTransformations s = false) :
    canonicalTail host segs cloudName idx = none ∨
      canonicalTail host segs cloudName idx = some none := by
  unfold canonicalTail
  by_cases hr : (normalizeResourceType (segs.getD idx []) ∈ resourceTypes ∨
      segs.getD idx [] = ("images").data)
  · rw [if_pos hr]
    have hrs : isResourceSeg (segs.getD idx []) = true := by
      unfold isResourceSeg
      rcases hr with h | h
      · exact decide_eq_true h
      · rw [h]
        decide
    cases hd : segs.get? (idx + 1) with
    | some d =>
      have hdm : d ∈ segs := List.get?_mem hd
      have hrt : segs.get? idx = some (segs.getD idx []) := get?_eq_some_getD segs idx hidx
      have hpair := mem_zip_tail segs idx _ _ hrt hd
      have hnd : d ∉ deliveryTypes := fun hdel => hP _ hpair ⟨hrs, hdel⟩
      simp only [canonicalDelivery]
      rw [if_neg hnd]
      rw [if_neg (by rw [hT d hdm]; simp)]
      left
      rfl
    | none =>
      right
      simp only [canonicalDelivery]
      have hge : segs.length ≤ idx + 1 := List.get?_eq_none.mp hd
      rw [List.drop_eq_nil_of_le hge]
      rfl
  · rw [if_neg hr]
    left
    rfl

theorem parseCanonical_null (host : Str) (segs : List Str)
    (hlen : 2 ≤ segs.length)
    (hP : ∀ p ∈ segs.zip segs.tail,
      ¬(isResourceSeg p.1 = true ∧ p.2 ∈ deliveryTypes))
    (hT : ∀ s ∈ segs, hasCloudinaryTransformations s = false) :
    parseCanonical host segs = none ∨ parseCanonical host segs = some none := by
  unfold parseCanonical
  by_cases hc : (segs.headD [] ∉ resourceTypes ∧
      normalizeResourceType (segs.headD []) ≠ ("image").data)
  · rw [if_pos hc]
    exact canonicalTail_null host segs _ 1 (by omega) hP hT
  · rw [if_neg hc]
    exact canonicalTail_null host segs _ 0 (by omega) hP hT

/-! ## Claim theorems -/

/-- C1: finalize returns score 0 when the CDN-asset count or the
total-request count is zero, and otherwise
round(0.5*(cdn/total*100) + 0.5*(fullyOptimized/cdn*100)) clamped to
[0,100], with "fully optimized" meaning `f_auto` plus `q_auto` or a
`q_auto:*` token, raw/SVG assets counting automatically; the score is
always an integer in [0,100]; 10 total assets with 5 CDN assets all
carrying `f_auto,q_auto` score 75. -/
theorem claim1_score_formula :
    (∀ r : AnalysisInput, (finalizeAnalysis r).score = specScore r) ∧
    (∀ r : AnalysisInput,
      0 ≤ (finalizeAnalysis r).score ∧ (finalizeAnalysis r).score ≤ 100) ∧
    (∀ r : AnalysisInput,
      r.cloudinaryRequests.length = 0 ∨ r.totalRequests = 0 →
        (finalizeAnalysis r).score = 0) ∧
    (finalizeAnalysis scenarioTen).score = 75 := by
  refine ⟨finalize_score_eq_spec, fun r => ⟨le_max_left _ _, ?_⟩, ?_, ?_⟩
  · exact max_le (by norm_num) (min_le_left _ _)
  · intro r h
    rw [finalize_score_eq_spec r]
    unfold specScore
    rw [if_pos h]
  · show scoreOf scenarioTen = 75
    unfold scoreOf rawScoreOf
    rw [scenarioTen_counts.1, scenarioTen_counts.2.1, scenarioTen_counts.2.2]
    norm_num [jsRound]

/-- Witness for C1: a collection with no CDN assets scores 0. -/
theorem claim1_score_formula_witness :
    (finalizeAnalysis ⟨7, [], []⟩).score = 0 :=
  claim1_score_formula.2.2.1 ⟨7, [], []⟩ (Or.inl rfl)

/-- C9: classifying `/cloud/image/upload/f_auto,q_auto,w_500/sample.jpg`
yields resourceType `image`, deliveryType `upload`, a transformation set
containing `f_auto`, `q_auto` and `w_500`, publicId `sample.jpg`, and
cloudName `cloud`. -/
theorem claim9_classify_sample :
    parseCloudinaryUrl (("/cloud/image/upload/f_auto,q_auto,w_500/sample.jpg").data) =
      some sampleCld ∧
    sampleCld.resourceType = ("image").data ∧
    sampleCld.deliveryType = ("upload").data ∧
    sampleCld.publicId = ("sample.jpg").data ∧
    sampleCld.cloudName = ("cloud").data ∧
    ("f_auto").data ∈ sampleCld.txSet ∧ ("q_auto").data ∈ sampleCld.txSet ∧
      ("w_500").data ∈ sampleCld.txSet := by
  decide

/-- C3 counterexample: in markup mode, the URL
`/cloud/image/upload/sample.jpg` classifies successfully with an empty
transformation set and is nevertheless counted as a CDN asset, refuting
"only when classification succeeds and the resulting descriptor's
transformationSet is non-empty". -/
theorem claim3_counterexample :
    parseCloudinaryUrl (("/cloud/image/upload/sample.jpg").data) = some plainUploadCld ∧
    plainUploadCld.txSet = [] ∧
    (htmlCollect [plainUploadEl]).cloudinaryRequests =
      [⟨("/cloud/image/upload/sample.jpg").data, none, some plainUploadCld, none⟩] ∧
    (analyzeFromHtml [plainUploadEl]).coverage.cloudinary = 1 := by decide

/-- C3 amended: in markup mode the first whitespace-delimited candidate of
the source-bearing attributes is counted as a CDN asset exactly when
classification succeeds, with no condition on the transformation set; the
header-evidence-or-non-empty-transformationSet rule applies only in
capture mode. -/
theorem claim3_markup_counting :
    (∀ (els : List HtmlEl) (e : CldEntry),
      e ∈ (analyzeFromHtml els).cloudinaryRequests ↔
        ∃ el ∈ els, rawOf el ≠ [] ∧
          ∃ c, parseCloudinaryUrl (firstCandidate (rawOf el)) = some c ∧
            e = ⟨firstCandidate (rawOf el), none, some c, none⟩) ∧
    (∀ he : HarEntry, ∀ c, parseCloudinaryUrl he.url = some c → c.txSet = [] →
      hasCloudinaryResponseHeaders he.headers = false →
        harIsCloudinary he = false) := by
  constructor
  · intro els e
    show e ∈ (htmlCollect els).cloudinaryRequests ↔ _
    simp only [htmlCollect, List.mem_filterMap]
    constructor
    · rintro ⟨el, hel, hf⟩
      by_cases hraw : rawOf el = []
      · simp [hraw] at hf
      · rw [if_neg hraw] at hf
        cases hp : parseCloudinaryUrl (firstCandidate (rawOf el)) with
        | none => rw [hp] at hf; exact absurd hf (by simp)
        | some c =>
          rw [hp] at hf
          simp only [Option.some.injEq] at hf
          exact ⟨el, hel, hraw, c, hp, hf.symm⟩
    · rintro ⟨el, hel, hraw, c, hp, he⟩
      refine ⟨el, hel, ?_⟩
      rw [if_neg hraw, hp, he]
  · intro he c hp htx hh
    unfold harIsCloudinary
    rw [hp, hh]
    simp [htx]

/-- Witness for the amended C3: the empty-transformation-set URL is counted
in markup mode, and the same classification without header evidence is
rejected in capture mode. -/
theorem claim3_markup_counting_witness :
    (⟨("/cloud/image/upload/sample.jpg").data, none, some plainUploadCld, none⟩ :
        CldEntry) ∈ (analyzeFromHtml [plainUploadEl]).cloudinaryRequests ∧
    harIsCloudinary ⟨("/cloud/image/upload/sample.jpg").data, [], none⟩ = false :=
  ⟨(claim3_markup_counting.1 [plainUploadEl] _).mpr
      ⟨plainUploadEl, by decide, by decide, plainUploadCld, by decide, by decide⟩,
   claim3_markup_counting.2 ⟨("/cloud/image/upload/sample.jpg").data, [], none⟩
      plainUploadCld (by decide) (by decide) (by decide)⟩

/-- C10 counterexample: a CDN request carries a non-empty `cache-control`
header without `max-age=` (its second one), yet the cache suggestion is not
emitted, because the code inspects only the first `cache-control` header,
refuting "exactly when at least one CDN request carries such a header". -/
theorem claim10_counterexample :
    (∃ h ∈ (doubleCacheEntry.headers.getD []),
      lowerStr h.name = ("cache-control").data ∧ h.value ≠ [] ∧
        containsSub (("max-age=").data) h.value = false) ∧
    sgCache ∉ (finalizeAnalysis ⟨1, [doubleCacheEntry], []⟩).suggestions := by
  constructor
  · decide
  · rw [sgCache_mem_iff]
    decide

/-- C10 amended: finalize emits "Improve Cache-Control headers on versioned
assets." at most once, exactly when at least one CDN request's first
`cache-control` response header (in header order) has a non-empty value
that does not contain `max-age=`. -/
theorem claim10_cache_suggestion (r : AnalysisInput) :
    (sgCache ∈ (finalizeAnalysis r).suggestions ↔
      ∃ e ∈ r.cloudinaryRequests, cacheBad e = true) ∧
    (finalizeAnalysis r).suggestions.count sgCache ≤ 1 := by
  refine ⟨?_, sgCache_count_le_one r⟩
  rw [sgCache_mem_iff, List.any_eq_true]

/-- C5: finalize is a pure function of its input collection (in this
embedding it is a function, so determinism and idempotence hold
definitionally), and it is order-independent: permuting the asset
collection (and the non-CDN list) never changes the score, the suggestion
list, the per-asset results (as a multiset), or the coverage stats. -/
theorem claim5_finalize_order_independent (r₁ r₂ : AnalysisInput)
    (ht : r₁.totalRequests = r₂.totalRequests)
    (hc : r₁.cloudinaryRequests.Perm r₂.cloudinaryRequests)
    (hn : r₁.nonCloudinaryImages.Perm r₂.nonCloudinaryImages) :
    (finalizeAnalysis r₁).score = (finalizeAnalysis r₂).score ∧
    (finalizeAnalysis r₁).suggestions = (finalizeAnalysis r₂).suggestions ∧
    (finalizeAnalysis r₁).perAsset.Perm (finalizeAnalysis r₂).perAsset ∧
    (finalizeAnalysis r₁).coverage = (finalizeAnalysis r₂).coverage := by
  have hpa : (perAssetOf r₁).Perm (perAssetOf r₂) := hc.map mkAsset
  have hLen : (perAssetOf r₁).length = (perAssetOf r₂).length := hpa.length_eq
  have hIv : (ivAssetsOf r₁).length = (ivAssetsOf r₂).length := by
    simp only [ivAssetsOf, ← List.countP_eq_length_filter]
    exact hpa.countP_eq _
  have hAf : afCountOf r₁ = afCountOf r₂ := by
    simp only [afCountOf, ivAssetsOf, ← List.countP_eq_length_filter,
      List.countP_filter]
    exact hpa.countP_eq _
  have hAq : aqCountOf r₁ = aqCountOf r₂ := by
    simp only [aqCountOf, ivAssetsOf, ← List.countP_eq_length_filter,
      List.countP_filter]
    exact hpa.countP_eq _
  have hNs : needSizingOf r₁ = needSizingOf r₂ := by
    simp only [needSizingOf, ← List.countP_eq_length_filter]
    exact hpa.countP_eq _
  have hOpt : optimizedOf r₁ = optimizedOf r₂ := by
    simp only [optimizedOf, ← List.countP_eq_length_filter]
    exact hpa.countP_eq _
  have hNon : r₁.nonCloudinaryImages.length = r₂.nonCloudinaryImages.length :=
    hn.length_eq
  have hAny : r₁.cloudinaryRequests.any cacheBad =
      r₂.cloudinaryRequests.any cacheBad := perm_any hc _
  refine ⟨?_, ?_, hpa, ?_⟩
  · show scoreOf r₁ = scoreOf r₂
    unfold scoreOf rawScoreOf
    rw [hLen, hOpt, ht]
  · show suggestionsOf r₁ = suggestionsOf r₂
    unfold suggestionsOf
    rw [hIv, hAf, hAq, hNon, hNs, hAny]
  · show (⟨r₁.totalRequests, (perAssetOf r₁).length,
      r₁.nonCloudinaryImages.length, afCountOf r₁, aqCountOf r₁⟩ : Coverage) = _
    rw [ht, hLen, hNon, hAf, hAq]
    rfl

/-- Witness for C5: swapping two concrete assets changes nothing. -/
theorem claim5_finalize_order_independent_witness :
    (finalizeAnalysis ⟨2, [optimizedEntry, doubleCacheEntry], []⟩).score =
      (finalizeAnalysis ⟨2, [doubleCacheEntry, optimizedEntry], []⟩).score ∧
    (finalizeAnalysis ⟨2, [optimizedEntry, doubleCacheEntry], []⟩).suggestions =
      (finalizeAnalysis ⟨2, [doubleCacheEntry, optimizedEntry], []⟩).suggestions ∧
    (finalizeAnalysis ⟨2, [optimizedEntry, doubleCacheEntry], []⟩).perAsset.Perm
      (finalizeAnalysis ⟨2, [doubleCacheEntry, optimizedEntry], []⟩).perAsset ∧
    (finalizeAnalysis ⟨2, [optimizedEntry, doubleCacheEntry], []⟩).coverage =
      (finalizeAnalysis ⟨2, [doubleCacheEntry, optimizedEntry], []⟩).coverage :=
  claim5_finalize_order_independent _ _ rfl
    (List.Perm.swap doubleCacheEntry optimizedEntry []) (List.Perm.refl _)

/-- C6: without cancellation, the page loop catches every per-page failure,
appending the page's URL with a non-empty error message to `failed` and
continuing; the aggregate is compiled from exactly the successful pages, so
no failing page aborts the run. -/
theorem claim6_page_failure_tolerance (T tp : Nat)
    (pages : List (Str × FetchOutcome)) (h : 2 * pages.length < T) :
    runPages T tp 0 pages CrawlState.init =
      .done ⟨pageSuccesses pages, (pageSuccesses pages).map Prod.fst,
             pageFailures pages, pages.length⟩
        (compileSitemapResults (pageSuccesses pages) tp) ∧
    ∀ p ∈ pageFailures pages, p.2 ≠ [] := by
  refine ⟨?_, pageFailures_msg_ne_nil pages⟩
  have := runPages_complete T tp pages 0 CrawlState.init (by omega)
  simpa [CrawlState.init] using this

/-- Witness for C6: one 403 relay failure among 10 pages leaves exactly one
`failed` entry with the message "Forbidden"; the aggregate is compiled from
the other 9 pages. -/
theorem claim6_page_failure_tolerance_witness :
    runPages 1000 37 0 pagesOneFail CrawlState.init =
      .done ⟨pageSuccesses pagesOneFail,
             (pageSuccesses pagesOneFail).map Prod.fst,
             pageFailures pagesOneFail, pagesOneFail.length⟩
        (compileSitemapResults (pageSuccesses pagesOneFail) 37) ∧
    pageFailures pagesOneFail = [(('p' :: ("1").data), ("Forbidden").data)] ∧
    (pageSuccesses pagesOneFail).length = 9 ∧
    pagesOneFail.length = 10 :=
  ⟨(claim6_page_failure_tolerance 1000 37 pagesOneFail (by decide)).1,
   by decide, by decide, by decide⟩

/-- C7: the cancellation flag is read at the checkpoint before each fetch
and at the checkpoint after each fetch returns (before the inter-page
delay); once it reads true, exactly the iterations whose pre-fetch check
preceded it have issued fetches (`min n ⌈T/2⌉`), the run ends Cancelled
whenever the flag is set by the final checkpoint, and a compiled aggregate
exists only when the flag was never set during the run. -/
theorem claim7_cancellation (T tp : Nat) (pages : List (Str × FetchOutcome)) :
    ((finalState (runPages T tp 0 pages CrawlState.init)).fetched =
      min pages.length ((T + 1) / 2)) ∧
    (T ≤ 2 * pages.length →
      isCancelled (runPages T tp 0 pages CrawlState.init) = true) ∧
    (∀ st out, runPages T tp 0 pages CrawlState.init = .done st out →
      2 * pages.length < T) := by
  refine ⟨?_, ?_, ?_⟩
  · have := runPages_fetched T tp pages 0 CrawlState.init
    simpa [CrawlState.init] using this
  · intro h
    rw [runPages_cancelled]
    simpa using h
  · intro st out hdone
    have := runPages_cancelled T tp pages 0 CrawlState.init
    rw [hdone] at this
    simp [isCancelled] at this
    omega

/-- Witness for C7: the flag set after 3 of 10 fetches (first true reading
at checkpoint 6) stops the run with exactly 3 fetches issued and no
compiled result. -/
theorem claim7_cancellation_witness :
    (finalState (runPages 6 37 0 pagesOneFail CrawlState.init)).fetched = 3 ∧
    isCancelled (runPages 6 37 0 pagesOneFail CrawlState.init) = true :=
  ⟨(claim7_cancellation 6 37 pagesOneFail).1.trans (by decide),
   (claim7_cancellation 6 37 pagesOneFail).2.1 (by decide)⟩

/-- C4 counterexample: when robots.txt declares a sitemap and the fetch of
that declared sitemap URL fails, the failure propagates to the top-level
handler as a hard error instead of being swallowed with a single-page
fallback — refuting "every sitemap-related fetch failure is swallowed". -/
theorem claim4_counterexample :
    discoverUrls failDeclaredEnv =
      .error (.httpError 500 (("Internal Server Error").data) none) := by
  rfl

/-- C4 amended: the robots.txt fetch failure and the default
`/sitemap.xml` fetch failure are swallowed (single-page fallback), but a
failure fetching a robots-declared sitemap URL, or the first child sitemap
of an index, propagates to the caller as a hard error. -/
theorem claim4_sitemap_failures (env : SitemapEnv) :
    (∀ e, env.robots = .error e → ∀ e2, env.defaultDoc = .error e2 →
      discoverUrls env = .ok none) ∧
    (∀ txt, env.robots = .ok txt → parseRobotsTxt txt = [] →
      ∀ e2, env.defaultDoc = .error e2 → discoverUrls env = .ok none) ∧
    (∀ txt, env.robots = .ok txt → parseRobotsTxt txt ≠ [] →
      ∀ e, env.declaredDoc = .error e → discoverUrls env = .error e) ∧
    (∀ txt cs, env.robots = .ok txt → parseRobotsTxt txt ≠ [] →
      env.declaredDoc = .ok (.index cs) → cs ≠ [] →
      ∀ e, env.childDoc = .error e → discoverUrls env = .error e) := by
  refine ⟨?_, ?_, ?_, ?_⟩
  · intro e he e2 he2
    unfold discoverUrls
    rw [he, he2]
    simp
  · intro txt ht hp e2 he2
    unfold discoverUrls
    rw [ht, he2]
    simp [hp]
  · intro txt ht hp e he
    unfold discoverUrls
    rw [ht, he]
    simp [hp]
  · intro txt cs ht hp hd hcs e he
    unfold discoverUrls
    rw [ht, hd]
    simp [hp, followDoc, hcs, he]

/-- Witness for the amended C4: both robots.txt and the default sitemap
failing falls back to single-page analysis, while a failing robots-declared
sitemap fetch is a hard error. -/
theorem claim4_sitemap_failures_witness :
    discoverUrls ⟨.error .timeout, .error .timeout, .ok (.urlset []),
        .ok (.urlset [])⟩ = .ok none ∧
    discoverUrls failDeclaredEnv =
      .error (.httpError 500 (("Internal Server Error").data) none) :=
  ⟨(claim4_sitemap_failures _).1 .timeout rfl .timeout rfl,
   (claim4_sitemap_failures failDeclaredEnv).2.2.1 _ rfl (by decide) _ rfl⟩

/-- C8 counterexample: with 37 discovered pages, 10 selected, and one page
failing, the compiled metadata's percentage is "24.3" — computed from the 9
successfully analyzed pages — not the claimed selected/n rendering "27.0". -/
theorem claim8_counterexample :
    outcomeStats (runCrawl 1000 (pageNames 37) outsOneFail) =
      some (9, 37, ("24.3").data) ∧
    (selectPages (pageNames 37)).length = 10 ∧
    toFixed1 (((10:ℕ) : ℚ) / ((37:ℕ) : ℚ) * 100) = ("27.0").data ∧
    ("24.3").data ≠ ("27.0").data := by
  refine ⟨?_, by decide, toFixed1_10_37, by decide⟩
  have hdone := runPages_complete 1000 (pageNames 37).length
    ((selectPages (pageNames 37)).zip outsOneFail) 0 CrawlState.init (by decide)
  show outcomeStats (runPages 1000 (pageNames 37).length 0
    ((selectPages (pageNames 37)).zip outsOneFail) CrawlState.init) = _
  rw [hdone]
  show some (_, (pageNames 37).length, _) = _
  rw [show (CrawlState.init.results ++
      pageSuccesses ((selectPages (pageNames 37)).zip outsOneFail)) =
      pageSuccesses ((selectPages (pageNames 37)).zip outsOneFail) from by
    simp [CrawlState.init]]
  unfold compileSitemapResults
  simp only []
  have h9 : (pageSuccesses ((selectPages (pageNames 37)).zip outsOneFail)).length
      = 9 := by decide
  rw [h9]
  rw [show (pageNames 37).length = 37 from by decide]
  rw [if_pos (by norm_num), toFixed1_9_37]

/-- C8 amended: the orchestrator selects exactly min(10, n) pages — the
first min(10, n) entries of a shuffled copy (the shuffle is a
random-comparator sort producing some permutation; its distribution is not
modelled), distinct whenever the discovered URLs are distinct; the
compiled metadata reports totalPagesInSitemap = n, and percentage =
(successfullyAnalyzed/n*100) rendered to one decimal place, which equals
the claimed selected/n value when every sampled page succeeds. -/
theorem claim8_sampling_metadata (urls shuffled : List Str)
    (outs : List FetchOutcome) (T : Nat)
    (hperm : shuffled.Perm urls)
    (hlen : outs.length = (selectPages shuffled).length)
    (hT : 2 * (selectPages shuffled).length < T)
    (hall : ∀ o ∈ outs, ∃ els, o = .success els) :
    (selectPages shuffled).length = min 10 urls.length ∧
    (urls.Nodup → (selectPages shuffled).Nodup) ∧
    outcomeStats (runCrawl T shuffled outs) =
      some (min 10 urls.length, urls.length,
        if 0 < urls.length then
          toFixed1 (((min 10 urls.length : ℕ) : ℚ) / urls.length * 100)
        else ("0.0").data) := by
  have hsl : (selectPages shuffled).length = min 10 urls.length := by
    simp only [selectPages, List.length_take, hperm.length_eq]
    omega
  have hnd : urls.Nodup → (selectPages shuffled).Nodup := by
    intro h
    have hs : shuffled.Nodup := (hperm.nodup_iff).mpr h
    exact (List.take_sublist _ _).nodup hs
  refine ⟨hsl, hnd, ?_⟩
  have hpl : ((selectPages shuffled).zip outs).length =
      (selectPages shuffled).length := by
    rw [List.length_zip, hlen]
    omega
  have happ : ∀ p ∈ (selectPages shuffled).zip outs, ∃ els,
      p.2 = FetchOutcome.success els := by
    rintro ⟨a, b⟩ hp
    exact hall b (List.of_mem_zip hp).2
  have hps := pageSuccesses_length_all _ happ
  have hdone := runPages_complete T shuffled.length
    ((selectPages shuffled).zip outs) 0 CrawlState.init (by omega)
  show outcomeStats (runPages T shuffled.length 0
    ((selectPages shuffled).zip outs) CrawlState.init) = _
  rw [hdone]
  show some _ = _
  rw [show (compileSitemapResults
      (CrawlState.init.results ++
        pageSuccesses ((selectPages shuffled).zip outs)) shuffled.length) =
    compileSitemapResults
      (pageSuccesses ((selectPages shuffled).zip outs)) shuffled.length from by
    simp [CrawlState.init]]
  unfold compileSitemapResults
  simp only []
  congr 1
  have hlen2 : (pageSuccesses ((selectPages shuffled).zip outs)).length =
      min 10 urls.length := by rw [hps, hpl, hsl]
  rw [hlen2, hperm.length_eq]

/-- Witness for the amended C8: 37 pages, all sampled fetches succeeding,
reports 10 pages analyzed of 37 and percentage "27.0". -/
theorem claim8_sampling_metadata_witness :
    outcomeStats (runCrawl 1000 (pageNames 37) outsAllOk) =
      some (10, 37, ("27.0").data) := by
  have h := (claim8_sampling_metadata (pageNames 37) (pageNames 37) outsAllOk
    1000 (List.Perm.refl _) (by decide) (by decide)
    (fun o ho => ⟨[], List.eq_of_mem_replicate ho⟩)).2.2
  rw [h]
  rw [show (pageNames 37).length = 37 from by decide]
  rw [show (min 10 37 : ℕ) = 10 from by decide]
  rw [if_pos (by norm_num), toFixed1_10_37]

/-- C2: the URL classifier is total (modelled: the `new URL` throw is the
only failure source and is caught, yielding `null`), and every URL whose
parsed path contains no adjacent resourceType/deliveryType pair and no
segment matching the transformation-token grammar classifies to `null`. -/
theorem claim2_classifier_null :
    (∀ url : Str, urlParse url = none → parseCloudinaryUrl url = none) ∧
    (∀ (url host path : Str), urlParse url = some (host, path) →
      (∀ p ∈ (pathSegments path).zip (pathSegments path).tail,
        ¬(isResourceSeg p.1 = true ∧ p.2 ∈ deliveryTypes)) →
      (∀ s ∈ pathSegments path, hasCloudinaryTransformations s = false) →
      parseCloudinaryUrl url = none) := by
  constructor
  · intro url h
    simp only [parseCloudinaryUrl, h]
  · intro url host path hu hP hT
    have hstep : parseCloudinaryUrl url =
        classifySegments host (pathSegments path) := by
      simp only [parseCloudinaryUrl, hu]
    rw [hstep]
    unfold classifySegments
    by_cases hlen : (pathSegments path).length < 2
    · rw [if_pos hlen]
    · rw [if_neg hlen]
      have hex : parseExplicit host (pathSegments path) = none := by
        unfold parseExplicit
        rw [findPairIdx_eq_none _ hP]
      have hcn : parseCname host (pathSegments path) = none := by
        unfold parseCname
        rw [if_neg hlen]
        rw [List.findIdx?_eq_none_iff.mpr (fun s hs => by rw [hT s hs]; simp)]
      rcases parseCanonical_null host (pathSegments path) (by omega) hP hT
        with h | h
      · simp only [h, hex, hcn]
      · simp only [h]

/-- Witness for C2: a plain non-CDN image URL classifies to null. -/
theorem claim2_classifier_null_witness :
    parseCloudinaryUrl (("https://example.com/assets/photo.jpg").data) = none :=
  claim2_classifier_null.2 _ (("example.com").data)
    (("/assets/photo.jpg").data) (by decide) (by decide) (by decide)

end CloudinaryEval
